import Mathlib

set_option autoImplicit false

namespace SKSpec

/-!
Shallow embedding of the streaming content-aggregation protocol of
`semantic_kernel/connectors/ai/open_ai/contents/open_ai_streaming_chat_message_content.py`
(`OpenAIStreamingChatMessageContent.__add__`).

Python `Optional[str]` fields are `Option String`; Python string truthiness
(`None` and `""` are falsy) is `truthyStr`; the raised
`ContentAdditionException` is the `.error` branch of `Except String`.
-/

/-- Python truthiness of an optional string: `None` and the empty string are falsy. -/
def truthyStr : Option String → Bool
  | none => false
  | some s => s ≠ ""

/-- Python `a or b` on optional strings. -/
def pyOr (a b : Option String) : Option String :=
  if truthyStr a then a else b

/-- The `ChatRole` enum (`system`, `user`, `assistant`, `tool`). Every enum
member is a non-empty string, hence truthy in Python. -/
inductive ChatRole
  | system
  | user
  | assistant
  | tool
  deriving DecidableEq, Repr, Inhabited

/-- The `FunctionCall` content model (`name`, JSON-`arguments` string).
Modelled from the spec: the class itself is not under `src/` (only this
repository's streaming content imports it); per the spec, argument fragments
accumulate into a running buffer, so `__add__` keeps the first truthy name and
concatenates the argument strings with `None` treated as the empty string. -/
structure FunctionCall where
  name : Option String
  arguments : Option String
  deriving DecidableEq, Repr

/-- Modelled from the spec: `FunctionCall.__add__`. A falsy right operand
(`None`) returns the left operand unchanged. -/
def FunctionCall.add (a : FunctionCall) : Option FunctionCall → FunctionCall
  | none => a
  | some b => ⟨pyOr a.name b.name, some ((a.arguments.getD "") ++ (b.arguments.getD ""))⟩

/-- The `ToolCall` content model (`id`, `type`, `function`). Modelled from the
spec: the class is not under `src/`; a tool call wraps one `FunctionCall`
plus the provider-assigned call id. -/
structure ToolCall where
  id : Option String
  callType : Option String
  function : Option FunctionCall
  deriving DecidableEq, Repr

/-- Modelled from the spec: `ToolCall.__add__`. Keeps the first truthy id and
type and merges the wrapped function-call fragments (the running arguments
buffer of the spec). -/
def ToolCall.add (a : ToolCall) : Option ToolCall → ToolCall
  | none => a
  | some b =>
      ⟨pyOr a.id b.id, pyOr a.callType b.callType,
        match a.function with
        | some f => some (f.add b.function)
        | none => b.function⟩

/-- A Python `dict[Optional[str], ToolCall]` as an insertion-ordered
association list with unique keys. -/
abbrev TCDict := List (Option String × ToolCall)

/-- Python `d[k] = v`: replaces in place when the key is present (keeping its
position), otherwise appends a new entry at the end. -/
def dictInsert (d : TCDict) (k : Option String) (v : ToolCall) : TCDict :=
  if d.any (fun p => decide (p.1 = k)) then
    d.map (fun p => if p.1 = k then (p.1, v) else p)
  else d ++ [(k, v)]

/-- Python `d[k] += nt` (i.e. `d[k] = d[k] + nt`): merges `nt` into the value
stored at `k`, keeping the entry's position. -/
def dictAddAt (d : TCDict) (k : Option String) (nt : ToolCall) : TCDict :=
  d.map (fun p => if p.1 = k then (p.1, p.2.add (some nt)) else p)

/-- The dict comprehension `{t.id: t for t in ts}` (line 58 and line 67 of the
source): later duplicates overwrite in place. -/
def toDict (ts : List ToolCall) : TCDict :=
  ts.foldl (fun d t => dictInsert d t.id t) []

/-- The body of the loop over `other.tool_calls` (lines 61-65 of the source):
a fragment with no id, or with an id equal to `last_tc_id`, is merged into the
entry at `last_tc_id`; any other id is stored under its own key. -/
def mergeStep (lastId : Option String) (d : TCDict) (nt : ToolCall) : TCDict :=
  if nt.id = none ∨ nt.id = lastId then dictAddAt d lastId nt
  else dictInsert d nt.id nt

/-- Lines 56-68 of `OpenAIStreamingChatMessageContent.__add__`: the tool-call
merging logic. `last_tc_id` is computed once, before the loop over
`other.tool_calls`, and is never updated inside the loop. -/
def mergeToolCalls (selfTC otherTC : List ToolCall) : List ToolCall :=
  if selfTC.isEmpty then (toDict otherTC).map Prod.snd
  else
    (otherTC.foldl (mergeStep (((toDict selfTC).map Prod.fst).getLastD none))
        (toDict selfTC)).map Prod.snd

/-- `OpenAIStreamingChatMessageContent`: one streamed delta, tagged with the
`choice_index` of the candidate stream it belongs to. `inner_content` and
`metadata` are opaque payloads carried along unchanged. -/
structure StreamingChunk where
  choice_index : Nat
  inner_content : Option String
  ai_model_id : Option String
  metadata : List (String × String)
  role : Option ChatRole
  content : Option String
  encoding : Option String
  finish_reason : Option String
  function_call : Option FunctionCall
  tool_calls : List ToolCall
  tool_call_id : Option String
  deriving DecidableEq, Repr

/-- `OpenAIStreamingChatMessageContent.__add__` for a right operand that is an
`OpenAIStreamingChatMessageContent` (lines 47-82): the four guard checks raise
`ContentAdditionException` (the `.error` branch); otherwise a combined chunk is
built from `self`'s identity fields, concatenated text, first-wins
finish reason and the merged function/tool calls. -/
def combine (a b : StreamingChunk) : Except String StreamingChunk :=
  if a.choice_index ≠ b.choice_index then
    .error "Cannot add StreamingChatMessageContent with different choice_index"
  else if a.ai_model_id ≠ b.ai_model_id then
    .error "Cannot add StreamingChatMessageContent from different ai_model_id"
  else if a.encoding ≠ b.encoding then
    .error "Cannot add StreamingChatMessageContent with different encoding"
  else if a.role.isSome ∧ b.role.isSome ∧ a.role ≠ b.role then
    .error "Cannot add StreamingChatMessageContent with different role"
  else
    .ok
      { choice_index := a.choice_index
        inner_content := a.inner_content
        ai_model_id := a.ai_model_id
        metadata := a.metadata
        role := a.role
        content := some ((a.content.getD "") ++ (b.content.getD ""))
        encoding := a.encoding
        finish_reason := if a.finish_reason.isSome then a.finish_reason else b.finish_reason
        function_call :=
          match a.function_call with
          | some f => some (f.add b.function_call)
          | none => b.function_call
        tool_calls := mergeToolCalls a.tool_calls b.tool_calls
        tool_call_id := pyOr a.tool_call_id b.tool_call_id }

/-- The right operand of `__add__` as received at runtime: either another
streaming chunk, or any other Python value (line 45's failed `isinstance`). -/
inductive AddOperand
  | chunk (c : StreamingChunk)
  | nonChunk

/-- `OpenAIStreamingChatMessageContent.__add__` including the `isinstance`
guard of lines 45-46: a non-chunk right operand returns `self` unchanged. -/
def addOther (a : StreamingChunk) : AddOperand → Except String StreamingChunk
  | .nonChunk => .ok a
  | .chunk b => combine a b

/-- A chunk with text `"Hel"` (the spec's chunk `A`). -/
def chunkHel : StreamingChunk :=
  { choice_index := 0
    inner_content := none
    ai_model_id := some "gpt"
    metadata := []
    role := some .assistant
    content := some "Hel"
    encoding := some "utf-8"
    finish_reason := none
    function_call := none
    tool_calls := []
    tool_call_id := none }

/-- A chunk with text `"lo"` (the spec's chunk `B`), matching `chunkHel` in
choice index, model id and encoding. -/
def chunkLo : StreamingChunk :=
  { chunkHel with content := some "lo" }

end SKSpec

namespace SKSpec

/-- C10: combining a streaming chunk with any operand that is not a streaming
chat message chunk returns the first chunk itself, raising no error and
performing no merge. -/
theorem add_nonchunk_returns_self (a : StreamingChunk) :
    addOther a .nonChunk = .ok a :=
  rfl

/-- C1: whenever two streaming chunks combine successfully, the combined text
is the first chunk's text followed by the second's, with a missing text
treated as the empty string; in particular `combine A B` for
`A(text="Hel")`, `B(text="lo")` yields `"Hello"` while `combine B A` yields
`"loHel"`, so combination is not commutative. -/
theorem combine_text_concat :
    (∀ a b c : StreamingChunk, combine a b = .ok c →
        c.content = some ((a.content.getD "") ++ (b.content.getD ""))) ∧
      (combine chunkHel chunkLo).map (fun c => c.content) = .ok (some "Hello") ∧
      (combine chunkLo chunkHel).map (fun c => c.content) = .ok (some "loHel") := by
  refine ⟨?_, rfl, rfl⟩
  intro a b c h
  unfold combine at h
  split_ifs at h with h1 h2 h3 h4 h5 <;> cases h <;> rfl

/-- Closed witness for C1: the general combined-text statement instantiated at
the concrete chunks `A(text="Hel")` and `B(text="lo")`. -/
theorem combine_text_concat_witness :
    (combine chunkHel chunkLo).map (fun c => c.content) = .ok (some "Hello") :=
  combine_text_concat.2.1

/-- C2: combining two streaming chunks fails (with the incompatible-chunk
`ContentAdditionException`) exactly when they differ in choice index, model id
or encoding, or both have a role set and the roles differ; in every other case
`combine` returns a chunk and raises nothing. -/
theorem combine_error_iff (a b : StreamingChunk) :
    ((∃ e, combine a b = .error e) ↔
        (a.choice_index ≠ b.choice_index ∨ a.ai_model_id ≠ b.ai_model_id ∨
          a.encoding ≠ b.encoding ∨
          (a.role.isSome ∧ b.role.isSome ∧ a.role ≠ b.role))) ∧
      ((∃ c, combine a b = .ok c) ↔
        ¬(a.choice_index ≠ b.choice_index ∨ a.ai_model_id ≠ b.ai_model_id ∨
          a.encoding ≠ b.encoding ∨
          (a.role.isSome ∧ b.role.isSome ∧ a.role ≠ b.role))) := by
  unfold combine
  split_ifs with h1 h2 h3 h4 h5 <;> simp_all

/-!
Analysis of the tool-call merging of lines 56-68: the id-keyed dictionary
preserves first-appearance order of ids, and fragments with no id (or the
fixed `last_tc_id`) accumulate into the entry at `last_tc_id`.
-/

/-- One step of insertion-ordered key deduplication: the key order produced by
a Python dict comprehension / dict insertion. -/
def dedupStep (acc : List (Option String)) (k : Option String) : List (Option String) :=
  if k ∈ acc then acc else acc ++ [k]

/-- Keys of a Python dict built by successive insertion, in first-appearance
order. -/
def dedupKeys (l : List (Option String)) : List (Option String) :=
  l.foldl dedupStep []

/-- One step of the id-order bookkeeping stated by the amended claim: a
fragment with no id or the fixed last id changes no keys; any other id is
recorded at first appearance. -/
def specKeyStep (lastId : Option String) (ks : List (Option String)) (nt : ToolCall) :
    List (Option String) :=
  if nt.id = none ∨ nt.id = lastId then ks else dedupStep ks nt.id

/-- Stated from the amended claim's words: the ids of the combined tool-call
list, in first-appearance order — `self`'s ids first (deduplicated in first
appearance order), then each id of `other` that is neither missing nor equal
to the last id of `self`'s dictionary, at its first appearance. -/
def specMergedIds (selfTC otherTC : List ToolCall) : List (Option String) :=
  if selfTC.isEmpty then dedupKeys (otherTC.map ToolCall.id)
  else
    otherTC.foldl (specKeyStep ((dedupKeys (selfTC.map ToolCall.id)).getLastD none))
      (dedupKeys (selfTC.map ToolCall.id))

/-- Every entry of the dictionary is stored under its own tool-call id. -/
def WellKeyed (d : TCDict) : Prop := ∀ p ∈ d, p.2.id = p.1

theorem any_key_iff (d : TCDict) (k : Option String) :
    d.any (fun p => decide (p.1 = k)) = true ↔ k ∈ d.map Prod.fst := by
  simp only [List.any_eq_true, decide_eq_true_eq, List.mem_map]

theorem keys_dictInsert (d : TCDict) (k : Option String) (v : ToolCall) :
    (dictInsert d k v).map Prod.fst = dedupStep (d.map Prod.fst) k := by
  unfold dictInsert dedupStep
  by_cases h : k ∈ d.map Prod.fst
  · rw [if_pos ((any_key_iff d k).mpr h), if_pos h, List.map_map]
    apply List.map_congr_left
    intro p _
    by_cases hpk : p.1 = k
    · simp [hpk]
    · simp [hpk]
  · rw [if_neg (fun hc => h ((any_key_iff d k).mp hc)), if_neg h, List.map_append]
    rfl

theorem keys_dictAddAt (d : TCDict) (k : Option String) (nt : ToolCall) :
    (dictAddAt d k nt).map Prod.fst = d.map Prod.fst := by
  unfold dictAddAt
  rw [List.map_map]
  apply List.map_congr_left
  intro p _
  by_cases hpk : p.1 = k
  · simp [hpk]
  · simp [hpk]

theorem keys_toDict_fold (ts : List ToolCall) : ∀ d : TCDict,
    (ts.foldl (fun d t => dictInsert d t.id t) d).map Prod.fst
      = (ts.map ToolCall.id).foldl dedupStep (d.map Prod.fst) := by
  induction ts with
  | nil => intro d; rfl
  | cons t ts ih =>
    intro d
    simp only [List.foldl_cons, List.map_cons]
    rw [ih (dictInsert d t.id t), keys_dictInsert]

theorem keys_toDict (ts : List ToolCall) :
    (toDict ts).map Prod.fst = dedupKeys (ts.map ToolCall.id) :=
  keys_toDict_fold ts []

theorem wellKeyed_dictInsert {d : TCDict} {k : Option String} {v : ToolCall}
    (hd : WellKeyed d) (hv : v.id = k) : WellKeyed (dictInsert d k v) := by
  intro p hp
  unfold dictInsert at hp
  split_ifs at hp with hc
  · obtain ⟨q, hq, rfl⟩ := List.mem_map.mp hp
    by_cases hqk : q.1 = k
    · rw [if_pos hqk]
      show v.id = q.1
      rw [hv, hqk]
    · rw [if_neg hqk]
      exact hd q hq
  · rcases List.mem_append.mp hp with h1 | h2
    · exact hd p h1
    · have hpk : p = (k, v) := List.mem_singleton.mp h2
      subst hpk
      exact hv

theorem wellKeyed_dictAddAt {d : TCDict} {k : Option String} {nt : ToolCall}
    (hd : WellKeyed d) (hk : k = none ∨ truthyStr k = true)
    (hnt : nt.id = none ∨ nt.id = k) :
    WellKeyed (dictAddAt d k nt) := by
  intro p hp
  unfold dictAddAt at hp
  obtain ⟨q, hq, rfl⟩ := List.mem_map.mp hp
  by_cases hqk : q.1 = k
  · rw [if_pos hqk]
    have hq2 : q.2.id = q.1 := hd q hq
    show pyOr q.2.id nt.id = q.1
    rcases hk with hkn | hkt
    · have h1 : q.2.id = none := by rw [hq2, hqk, hkn]
      have h2 : nt.id = none := by
        rcases hnt with hx | hx
        · exact hx
        · rw [hx]
          exact hkn
      rw [h1, h2, hqk, hkn]
      simp [pyOr, truthyStr]
    · have h1 : truthyStr q.2.id = true := by rw [hq2, hqk]; exact hkt
      unfold pyOr
      rw [if_pos h1]
      exact hq2
  · rw [if_neg hqk]
    exact hd q hq

theorem wellKeyed_toDict_fold : ∀ (ts : List ToolCall) (d : TCDict), WellKeyed d →
    WellKeyed (ts.foldl (fun d t => dictInsert d t.id t) d)
  | [], _, hd => hd
  | _ :: ts, _, hd => wellKeyed_toDict_fold ts _ (wellKeyed_dictInsert hd rfl)

theorem wellKeyed_toDict (ts : List ToolCall) : WellKeyed (toDict ts) :=
  wellKeyed_toDict_fold ts [] (fun p hp => absurd hp (List.not_mem_nil p))

theorem ids_of_wellKeyed : ∀ {d : TCDict}, WellKeyed d →
    (d.map Prod.snd).map ToolCall.id = d.map Prod.fst
  | [], _ => rfl
  | p :: d, h => by
    have h1 := h p (List.mem_cons_self p d)
    have ih := ids_of_wellKeyed (fun q hq => h q (List.mem_cons_of_mem p hq))
    simp only [List.map_cons, ih, h1]

theorem getLastD_mem_of_ne_nil {α : Type} : ∀ (l : List α) (d : α), l ≠ [] → l.getLastD d ∈ l
  | [], _, h => absurd rfl h
  | a :: l, d, _ => by
    cases l with
    | nil => simp
    | cons b l =>
      have ih := getLastD_mem_of_ne_nil (b :: l) a (by simp)
      exact List.mem_cons_of_mem a ih

theorem mem_foldl_dedupStep : ∀ (l acc : List (Option String)) (x : Option String),
    x ∈ l.foldl dedupStep acc → x ∈ acc ∨ x ∈ l
  | [], _, _, h => Or.inl h
  | k :: l, acc, x, h => by
    rcases mem_foldl_dedupStep l (dedupStep acc k) x h with h1 | h2
    · unfold dedupStep at h1
      split_ifs at h1 with hk
      · exact Or.inl h1
      · rcases List.mem_append.mp h1 with ha | hb
        · exact Or.inl ha
        · have hx : x = k := List.mem_singleton.mp hb
          subst hx
          exact Or.inr (List.mem_cons_self x l)
    · exact Or.inr (List.mem_cons_of_mem k h2)

theorem lastId_valid (s : List ToolCall) (h : ∀ t ∈ s, t.id ≠ some "") :
    ((toDict s).map Prod.fst).getLastD none = none ∨
      truthyStr (((toDict s).map Prod.fst).getLastD none) = true := by
  by_cases hd : (toDict s).map Prod.fst = []
  · left
    rw [hd]
    rfl
  · have hmem : ((toDict s).map Prod.fst).getLastD none ∈ (toDict s).map Prod.fst :=
      getLastD_mem_of_ne_nil _ none hd
    rw [keys_toDict] at hmem ⊢
    rcases mem_foldl_dedupStep (s.map ToolCall.id) [] _ hmem with h1 | h2
    · exact absurd h1 (List.not_mem_nil _)
    · obtain ⟨t, ht, hid⟩ := List.mem_map.mp h2
      rw [← hid]
      cases hti : t.id with
      | none => exact Or.inl rfl
      | some sv =>
        right
        have hne : sv ≠ "" := by
          intro hsv
          exact h t ht (by rw [hti, hsv])
        simp [truthyStr, hne]

theorem mergeStep_pos {lastId : Option String} {d : TCDict} {nt : ToolCall}
    (hc : nt.id = none ∨ nt.id = lastId) :
    mergeStep lastId d nt = dictAddAt d lastId nt := by
  unfold mergeStep
  exact if_pos hc

theorem mergeStep_neg {lastId : Option String} {d : TCDict} {nt : ToolCall}
    (hc : ¬(nt.id = none ∨ nt.id = lastId)) :
    mergeStep lastId d nt = dictInsert d nt.id nt := by
  unfold mergeStep
  exact if_neg hc

theorem specKeyStep_pos {lastId : Option String} {ks : List (Option String)} {nt : ToolCall}
    (hc : nt.id = none ∨ nt.id = lastId) :
    specKeyStep lastId ks nt = ks := by
  unfold specKeyStep
  exact if_pos hc

theorem specKeyStep_neg {lastId : Option String} {ks : List (Option String)} {nt : ToolCall}
    (hc : ¬(nt.id = none ∨ nt.id = lastId)) :
    specKeyStep lastId ks nt = dedupStep ks nt.id := by
  unfold specKeyStep
  exact if_neg hc

theorem foldl_mergeStep_keys (lastId : Option String)
    (hlast : lastId = none ∨ truthyStr lastId = true) (o : List ToolCall) :
    ∀ d : TCDict, WellKeyed d →
      WellKeyed (o.foldl (mergeStep lastId) d) ∧
        (o.foldl (mergeStep lastId) d).map Prod.fst
          = o.foldl (specKeyStep lastId) (d.map Prod.fst) := by
  induction o with
  | nil => intro d hd; exact ⟨hd, rfl⟩
  | cons nt o ih =>
    intro d hd
    simp only [List.foldl_cons]
    by_cases hc : nt.id = none ∨ nt.id = lastId
    · rw [mergeStep_pos hc, specKeyStep_pos hc]
      have hd2 := wellKeyed_dictAddAt hd hlast hc
      refine ⟨(ih _ hd2).1, ?_⟩
      rw [(ih _ hd2).2, keys_dictAddAt]
    · rw [mergeStep_neg hc, specKeyStep_neg hc]
      have hd2 := @wellKeyed_dictInsert d nt.id nt hd rfl
      refine ⟨(ih _ hd2).1, ?_⟩
      rw [(ih _ hd2).2, keys_dictInsert]

theorem mergeToolCalls_id_order (s o : List ToolCall) (h : ∀ t ∈ s, t.id ≠ some "") :
    (mergeToolCalls s o).map ToolCall.id = specMergedIds s o := by
  by_cases hs : s.isEmpty
  · simp only [mergeToolCalls, specMergedIds, if_pos hs]
    rw [ids_of_wellKeyed (wellKeyed_toDict o), keys_toDict]
  · simp only [mergeToolCalls, specMergedIds, if_neg hs]
    have hspec := foldl_mergeStep_keys (((toDict s).map Prod.fst).getLastD none)
      (lastId_valid s h) o (toDict s) (wellKeyed_toDict s)
    rw [ids_of_wellKeyed hspec.1, hspec.2, keys_toDict]

theorem combine_ok_toolCalls (a b c : StreamingChunk) (h : combine a b = .ok c) :
    c.tool_calls = mergeToolCalls a.tool_calls b.tool_calls := by
  unfold combine at h
  split_ifs at h with h1 h2 h3 h4 h5 <;> cases h <;> rfl

/-- A first chunk carrying one tool-call fragment with id `"a"` and argument
fragment `"1"`. -/
def chunkToolA : StreamingChunk :=
  { chunkHel with
    content := none
    tool_calls := [⟨some "a", some "function", some ⟨some "f", some "1"⟩⟩] }

/-- A second chunk carrying a fragment with the new id `"b"` (arguments `"2"`)
followed by an id-less fragment (arguments `"3"`). -/
def chunkToolB : StreamingChunk :=
  { chunkHel with
    content := none
    tool_calls := [⟨some "b", some "function", some ⟨some "g", some "2"⟩⟩,
                   ⟨none, none, some ⟨none, some "3"⟩⟩] }

/-- The chunk produced by `combine chunkToolA chunkToolB`: the id-less
fragment was merged into the call with id `"a"` (the last id of the FIRST
chunk's dictionary), not into `"b"`. -/
def mergedToolChunk : StreamingChunk :=
  { chunkHel with
    content := some ""
    tool_calls := [⟨some "a", some "function", some ⟨some "f", some "13"⟩⟩,
                   ⟨some "b", some "function", some ⟨some "g", some "2"⟩⟩] }

/-- C3 counterexample: combining a chunk with tool call `a(args "1")` with a
chunk carrying fragments `b(args "2")` then `(no id, args "3")` appends the
id-less fragment to call `"a"` (the last id of the first chunk, fixed before
the loop) and not to the most-recently-seen id `"b"` as the claim states: the
result is `a ↦ "13", b ↦ "2"`, not `a ↦ "1", b ↦ "23"`. -/
theorem toolcall_merge_counterexample :
    (combine chunkToolA chunkToolB).map
        (fun c => c.tool_calls.map (fun t => (t.id, t.function.bind FunctionCall.arguments)))
      = .ok [(some "a", some "13"), (some "b", some "2")] ∧
      (combine chunkToolA chunkToolB).map
          (fun c => c.tool_calls.map (fun t => (t.id, t.function.bind FunctionCall.arguments)))
        ≠ .ok [(some "a", some "1"), (some "b", some "23")] := by
  constructor
  · rfl
  · intro hcontra
    rw [show (combine chunkToolA chunkToolB).map
        (fun c => c.tool_calls.map (fun t => (t.id, t.function.bind FunctionCall.arguments)))
      = .ok [(some "a", some "13"), (some "b", some "2")] from rfl] at hcontra
    injection hcontra with hlists
    exact absurd hlists (by decide)

/-- C3 (amended): when combining two streaming chunks whose first operand's
tool-call ids are all absent or non-empty, a fragment of the second chunk with
no id or with an id equal to the LAST id of the first chunk's tool-call
dictionary (fixed before processing, not updated as new ids arrive) is merged
into that call's running arguments buffer; a fragment with a fresh id starts a
new buffer at the end; and the combined tool-call list preserves
first-appearance order of ids. Concretely, merging `a(args "1")` with
`[b(args "2"), (no id, args "3")]` yields `a ↦ "13", b ↦ "2"`. -/
theorem toolcall_merge_amended :
    (∀ a b c : StreamingChunk, combine a b = .ok c →
        (∀ t ∈ a.tool_calls, t.id ≠ some "") →
        c.tool_calls.map ToolCall.id = specMergedIds a.tool_calls b.tool_calls) ∧
      (combine chunkToolA chunkToolB).map
          (fun c => c.tool_calls.map (fun t => (t.id, t.function.bind FunctionCall.arguments)))
        = .ok [(some "a", some "13"), (some "b", some "2")] := by
  constructor
  · intro a b c h hid
    rw [combine_ok_toolCalls a b c h]
    exact mergeToolCalls_id_order a.tool_calls b.tool_calls hid
  · rfl

/-- Closed witness for the amended C3 theorem, at the concrete chunks of the
counterexample. -/
theorem toolcall_merge_amended_witness :
    combine chunkToolA chunkToolB = .ok mergedToolChunk ∧
      mergedToolChunk.tool_calls.map ToolCall.id
        = specMergedIds chunkToolA.tool_calls chunkToolB.tool_calls :=
  ⟨rfl, toolcall_merge_amended.1 chunkToolA chunkToolB mergedToolChunk rfl (by decide)⟩

/-!
Embedding of `semantic_kernel/functions/functions_view.py` and of
`semantic_kernel/functions/kernel_function.py` (invocation engine).
-/

/-- A Python value as passed through kernel arguments: either an ordinary
(string-rendered) value, or one of the kernel-supplied objects that
`gather_function_parameters` injects for specially named parameters. -/
inductive KValue
  | str (s : String)
  | metadataVal
  | kernelVal
  | serviceVal
  | settingsVal
  | argumentsVal
  | promptConfigVal
  | chatHistoryVal
  deriving DecidableEq, Repr

/-- `KernelParameterMetadata` (the class itself is not under `src/`): the
fields read by `gather_function_parameters` and `from_native_method` —
`name`, `description`, `default_value`, `type_`, `required`, `expose`. -/
structure KernelParameterMetadata where
  name : String
  description : Option String
  default_value : Option KValue
  type_ : Option String
  required : Bool
  expose : Bool
  deriving DecidableEq, Repr

/-- `KernelFunctionMetadata` (`semantic_kernel/functions/kernel_function_metadata.py`). -/
structure KernelFunctionMetadata where
  name : String
  plugin_name : Option String
  description : Option String
  parameters : List KernelParameterMetadata
  is_prompt : Bool
  is_asynchronous : Option Bool
  return_parameter : Option KernelParameterMetadata
  deriving DecidableEq, Repr

/-- A Python `Dict[str, List[KernelFunctionMetadata]]` (plugin name, possibly
`None`, to registered functions) as an insertion-ordered association list. -/
abbrev FVDict := List (Option String × List KernelFunctionMetadata)

/-- Python `d.get(k, [])`. -/
def fvGet (d : FVDict) (k : Option String) : List KernelFunctionMetadata :=
  match d.find? (fun p => decide (p.1 = k)) with
  | some p => p.2
  | none => []

/-- The body of `FunctionsView.add_function` for one of the two dicts:
`if k not in d: d[k] = []` followed by `d[k].append(v)`. -/
def fvAppend (d : FVDict) (k : Option String) (v : KernelFunctionMetadata) : FVDict :=
  if d.any (fun p => decide (p.1 = k)) then
    d.map (fun p => if p.1 = k then (p.1, p.2 ++ [v]) else p)
  else d ++ [(k, [v])]

/-- `FunctionsView` (`semantic_kernel/functions/functions_view.py`): two
insertion-ordered dicts of registered function metadata, keyed by plugin
name. -/
structure FunctionsView where
  semantic_functions : FVDict
  native_functions : FVDict
  deriving DecidableEq, Repr

/-- `FunctionsView.add_function` (lines 18-28): appends the descriptor to the
semantic or native dict according to `is_prompt` and returns the view. There
is no duplicate check of any kind. -/
def addFunction (fv : FunctionsView) (view : KernelFunctionMetadata) : FunctionsView :=
  if view.is_prompt then
    { fv with semantic_functions := fvAppend fv.semantic_functions view.plugin_name view }
  else
    { fv with native_functions := fvAppend fv.native_functions view.plugin_name view }

/-- `FunctionsView.is_prompt` (lines 30-43): raises `KernelException`
(`AmbiguousImplementation`) when the name is registered both as semantic and
as native; otherwise reports whether it is semantic. -/
def isPromptQuery (fv : FunctionsView) (plugin_name function_name : String) :
    Except String Bool :=
  let as_sf := (fvGet fv.semantic_functions (some plugin_name)).any
    (fun f => decide (f.name = function_name))
  let as_nf := (fvGet fv.native_functions (some plugin_name)).any
    (fun f => decide (f.name = function_name))
  if as_sf ∧ as_nf then
    .error "AmbiguousImplementation"
  else .ok as_sf

theorem fvGet_map_update (k : Option String) (v : KernelFunctionMetadata) :
    ∀ d : FVDict, d.any (fun p => decide (p.1 = k)) = true →
      fvGet (d.map (fun p => if p.1 = k then (p.1, p.2 ++ [v]) else p)) k
        = fvGet d k ++ [v]
  | [], h => by simp at h
  | p :: d, h => by
    by_cases hpk : p.1 = k
    · simp only [List.map_cons, if_pos hpk]
      unfold fvGet
      rw [List.find?_cons_of_pos _ (by simpa using hpk),
        List.find?_cons_of_pos _ (by simpa using hpk)]
    · have hd : d.any (fun p => decide (p.1 = k)) = true := by
        simp only [List.any_cons, hpk] at h
        simpa using h
      simp only [List.map_cons, if_neg hpk]
      unfold fvGet
      rw [List.find?_cons_of_neg _ (by simpa using hpk),
        List.find?_cons_of_neg _ (by simpa using hpk)]
      exact fvGet_map_update k v d hd

theorem fvGet_append_new (k : Option String) (v : KernelFunctionMetadata) :
    ∀ d : FVDict, ¬(d.any (fun p => decide (p.1 = k)) = true) →
      fvGet (d ++ [(k, [v])]) k = fvGet d k ++ [v]
  | [], _ => by
    unfold fvGet
    rw [List.nil_append, List.find?_cons_of_pos _ (by simp)]
    rfl
  | p :: d, h => by
    have hpk : ¬p.1 = k := by
      intro hx
      exact h (by simp [List.any_cons, hx])
    have hd : ¬(d.any (fun p => decide (p.1 = k)) = true) := by
      intro hx
      exact h (by simp [List.any_cons, hx])
    unfold fvGet
    rw [List.cons_append, List.find?_cons_of_neg _ (by simpa using hpk),
      List.find?_cons_of_neg _ (by simpa using hpk)]
    exact fvGet_append_new k v d hd

theorem fvGet_fvAppend_self (d : FVDict) (k : Option String) (v : KernelFunctionMetadata) :
    fvGet (fvAppend d k v) k = fvGet d k ++ [v] := by
  unfold fvAppend
  by_cases hany : d.any (fun p => decide (p.1 = k)) = true
  · rw [if_pos hany]
    exact fvGet_map_update k v d hany
  · rw [if_neg hany]
    exact fvGet_append_new k v d hany

/-- A prompt-kind descriptor used to demonstrate duplicate registration. -/
def dupMeta : KernelFunctionMetadata :=
  { name := "f"
    plugin_name := some "p"
    description := none
    parameters := []
    is_prompt := true
    is_asynchronous := some true
    return_parameter := none }

/-- The empty registry. -/
def fvEmptyView : FunctionsView := ⟨[], []⟩

/-- C9 counterexample: registering the same `(plugin_name, function_name)`
descriptor twice does not fail — `add_function` has no duplicate check — and
the registry is changed by the second registration: the plugin's list then
holds the descriptor twice. -/
theorem register_duplicate_counterexample :
    addFunction (addFunction fvEmptyView dupMeta) dupMeta
        = ⟨[(some "p", [dupMeta, dupMeta])], []⟩ ∧
      addFunction (addFunction fvEmptyView dupMeta) dupMeta
        ≠ addFunction fvEmptyView dupMeta := by
  constructor
  · rfl
  · decide

/-- C9 (amended): `add_function` never rejects a duplicate; for every registry
and descriptor it appends the descriptor at the end of the per-plugin list of
the dict selected by `is_prompt` and leaves the other dict's entry for that
plugin unchanged — even when the `(plugin_name, function_name)` pair is
already present. No `DuplicateFunctionError` exists in this code path (only
`is_prompt`/`is_native` raise, when a name is registered both as semantic and
native). -/
theorem addFunction_appends (fv : FunctionsView) (v : KernelFunctionMetadata) :
    fvGet (addFunction fv v).semantic_functions v.plugin_name
        = fvGet fv.semantic_functions v.plugin_name
          ++ (if v.is_prompt then [v] else [])
      ∧ fvGet (addFunction fv v).native_functions v.plugin_name
        = fvGet fv.native_functions v.plugin_name
          ++ (if v.is_prompt then [] else [v]) := by
  unfold addFunction
  by_cases hp : v.is_prompt = true
  · simp only [hp, if_true]
    exact ⟨fvGet_fvAppend_self _ _ _, by simp⟩
  · simp only [hp, if_false]
    exact ⟨by simp, fvGet_fvAppend_self _ _ _⟩

/-!
Embedding of `KernelFunction.invoke` and `KernelFunction.gather_function_parameters`
(`semantic_kernel/functions/kernel_function.py`, lines 460-496 and 534-579).
-/

/-- Kernel arguments and gathered function arguments: a Python dict
`str -> value` as an insertion-ordered association list. -/
abbrev KArgs := List (String × KValue)

/-- Python `d.get(k)` (`None` when absent). -/
def argGet (args : KArgs) (k : String) : Option KValue :=
  match args.find? (fun p => decide (p.1 = k)) with
  | some p => some p.2
  | none => none

/-- Python `k in d`. -/
def argHasKey (args : KArgs) (k : String) : Bool :=
  args.any (fun p => decide (p.1 = k))

/-- Python `d[k] = v`. -/
def argSet (args : KArgs) (k : String) (v : KValue) : KArgs :=
  if args.any (fun p => decide (p.1 = k)) then
    args.map (fun p => if p.1 = k then (p.1, v) else p)
  else args ++ [(k, v)]

/-- An input variable of a `PromptTemplateConfig` (`name`, `default`), the
fields read by `add_default_values`. -/
structure PromptInputVariable where
  name : String
  default : Option KValue
  deriving DecidableEq, Repr

/-- Python truthiness of `arguments.get(name)`: absent and the empty string
are falsy; the kernel-supplied objects are truthy. -/
def truthyVal : Option KValue → Bool
  | none => false
  | some (.str s) => s ≠ ""
  | some _ => true

/-- Line 578: `parameter.default not in (None, "", False, 0)` for the value
kinds we model (strings and kernel objects). -/
def defaultUsable : Option KValue → Bool
  | none => false
  | some (.str s) => s ≠ ""
  | some _ => true

/-- The `isinstance(chat, ChatHistory)` check of line 558. -/
def isChatHistoryVal : KValue → Bool
  | .chatHistoryVal => true
  | _ => false

/-- `KernelFunction` (`semantic_kernel/functions/kernel_function.py`): the
fields read by `invoke` and `gather_function_parameters`. The Python callable
`self.function` is embedded as `fn`, whose `.error` branch is a raised
exception. `prompt_template_config` is reduced to the input variables read by
`add_default_values`. -/
structure KernelFunctionDef where
  plugin_name : String
  name : String
  description : Option String
  is_prompt : Bool
  parameters : List KernelParameterMetadata
  return_parameter : Option KernelParameterMetadata
  fn : KArgs → Except String KValue
  prompt_template_config : Option (List PromptInputVariable)

/-- The parameter loop of `KernelFunction.gather_function_parameters`
(lines 536-570): specially named parameters receive kernel-supplied objects;
a prompt function skips its remaining declared parameters; a parameter found
in the arguments is copied; a missing required parameter raises `ValueError`
(the `.error` branch); a missing optional parameter is skipped (its
`default_value` is only logged, never inserted here). -/
def gatherLoop (f : KernelFunctionDef) (arguments : KArgs) :
    List KernelParameterMetadata → KArgs → Except String KArgs
  | [], acc => .ok acc
  | param :: rest, acc =>
    if param.name = "function" then
      gatherLoop f arguments rest (acc ++ [(param.name, .metadataVal)])
    else if param.name = "kernel" then
      gatherLoop f arguments rest (acc ++ [(param.name, .kernelVal)])
    else if param.name = "service" then
      gatherLoop f arguments rest (acc ++ [(param.name, .serviceVal)])
    else if param.name = "request_settings" then
      gatherLoop f arguments rest (acc ++ [(param.name, .settingsVal)])
    else if param.name = "arguments" then
      gatherLoop f arguments rest (acc ++ [(param.name, .argumentsVal)])
    else if param.name = "prompt_template_config" then
      gatherLoop f arguments rest (acc ++ [(param.name, .promptConfigVal)])
    else if param.name = "chat_history" then
      let chat := (argGet arguments "chat_history").getD .chatHistoryVal
      if isChatHistoryVal chat then
        gatherLoop f arguments rest (acc ++ [(param.name, chat)])
      else .error ("Parameter " ++ param.name ++ " is not a valid ChatHistory object.")
    else if f.is_prompt then
      gatherLoop f arguments rest acc
    else
      match argGet arguments param.name with
      | some v => gatherLoop f arguments rest (acc ++ [(param.name, v)])
      | none =>
        if param.required then
          .error ("Parameter " ++ param.name
            ++ " is required but not provided in the arguments.")
        else gatherLoop f arguments rest acc

/-- `KernelFunction.add_default_values` (lines 575-579). -/
def addDefaultValues (arguments : KArgs) (vars : List PromptInputVariable) : KArgs :=
  vars.foldl
    (fun acc p =>
      if truthyVal (argGet acc p.name) = false ∧ defaultUsable p.default = true then
        argSet acc p.name (p.default.getD (.str ""))
      else acc)
    arguments

/-- `KernelFunction.gather_function_parameters` (lines 534-573): the loop over
declared parameters followed by `add_default_values` when a prompt template
config is present. -/
def gatherFunctionParameters (f : KernelFunctionDef) (arguments : KArgs) :
    Except String KArgs :=
  match gatherLoop f arguments f.parameters [] with
  | .error e => .error e
  | .ok acc =>
    .ok
      (match f.prompt_template_config with
        | some vars => addDefaultValues acc vars
        | none => acc)

/-- `FunctionResult`: the returned value, the `error` metadata entry set when
the callable raised, and the `arguments` metadata entry. -/
structure FunctionResult where
  value : Option KValue
  errorMeta : Option String
  argumentsMeta : KArgs
  deriving DecidableEq, Repr

/-- Lines 480-481 of `invoke`: a prompt function with no chat history among
its gathered arguments receives a fresh `ChatHistory`. -/
def finalArgs (f : KernelFunctionDef) (fargs : KArgs) : KArgs :=
  if f.is_prompt = true ∧ argHasKey fargs "chat_history" = false then
    fargs ++ [("chat_history", .chatHistoryVal)]
  else fargs

/-- Line 494: whether the declared return type mentions `FunctionResult`. -/
def frDeclared (f : KernelFunctionDef) : Bool :=
  match f.return_parameter with
  | some rp =>
    match rp.type_ with
    | some t => decide ("FunctionResult".toList <:+: t.toList)
    | none => false
  | none => false

/-- `KernelFunction.invoke` (lines 460-496). `gather_function_parameters` is
called OUTSIDE the `try` block, so its exceptions propagate to the caller
(the `.error` branch); only exceptions raised by the callable itself are
caught and converted into a `FunctionResult` with empty value and error
metadata. When the declared return type mentions `FunctionResult`, the
callable's own result is returned unwrapped (modelled as a result carrying
just the value). -/
def invokeFunction (f : KernelFunctionDef) (arguments : KArgs) :
    Except String FunctionResult :=
  match gatherFunctionParameters f arguments with
  | .error e => .error e
  | .ok fargs0 =>
    match f.fn (finalArgs f fargs0) with
    | .error exc =>
      .ok { value := none, errorMeta := some exc, argumentsMeta := finalArgs f fargs0 }
    | .ok result =>
      if frDeclared f then
        .ok { value := some result, errorMeta := none, argumentsMeta := [] }
      else
        .ok { value := some result, errorMeta := none, argumentsMeta := finalArgs f fargs0 }

/-- A native function declaring one required parameter `"x"` with no default;
its callable never raises. -/
def reqParamFun : KernelFunctionDef :=
  { plugin_name := "p"
    name := "f"
    description := none
    is_prompt := false
    parameters := [{ name := "x", description := none, default_value := none,
                     type_ := some "str", required := true, expose := true }]
    return_parameter := none
    fn := fun _ => .ok (.str "ok")
    prompt_template_config := none }

/-- A native function with no parameters whose callable raises. -/
def raisingFun : KernelFunctionDef :=
  { plugin_name := "p"
    name := "g"
    description := none
    is_prompt := false
    parameters := []
    return_parameter := none
    fn := fun _ => .error "boom"
    prompt_template_config := none }

/-- C6 counterexample: invoking a function whose required parameter `"x"` is
absent from the arguments raises `ValueError` out of `invoke` — the exception
is NOT caught and converted into a `FunctionResult`, because
`gather_function_parameters` runs outside the `try` block (line 479 versus
lines 483-491). -/
theorem invoke_missing_required_counterexample :
    invokeFunction reqParamFun []
        = .error "Parameter x is required but not provided in the arguments." ∧
      ∀ r : FunctionResult, invokeFunction reqParamFun [] ≠ .ok r := by
  constructor
  · rfl
  · intro r hcontra
    rw [show invokeFunction reqParamFun []
        = .error "Parameter x is required but not provided in the arguments." from rfl]
      at hcontra
    cases hcontra

/-- C6 (amended): an exception raised by the callable itself is caught and
converted into a `FunctionResult` whose value is empty and whose metadata
carries the error; but an exception raised while gathering parameters — in
particular a required declared parameter absent from the arguments —
propagates out of `invoke` to the caller unhandled. -/
theorem invoke_error_handling (f : KernelFunctionDef) (args : KArgs) :
    (∀ fargs e, gatherFunctionParameters f args = .ok fargs →
        f.fn (finalArgs f fargs) = .error e →
        invokeFunction f args
          = .ok { value := none, errorMeta := some e, argumentsMeta := finalArgs f fargs })
      ∧ ∀ e, gatherFunctionParameters f args = .error e →
          invokeFunction f args = .error e := by
  constructor
  · intro fargs e hg he
    simp only [invokeFunction, hg, he]
  · intro e hg
    simp only [invokeFunction, hg]

/-- Closed witness for the amended C6 theorem: a raising callable yields a
`FunctionResult` with error metadata, and a missing required parameter
propagates as an error. -/
theorem invoke_error_handling_witness :
    invokeFunction raisingFun []
        = .ok { value := none, errorMeta := some "boom", argumentsMeta := [] }
      ∧ invokeFunction reqParamFun []
        = .error "Parameter x is required but not provided in the arguments." :=
  ⟨(invoke_error_handling raisingFun []).1 [] "boom" rfl rfl,
    (invoke_error_handling reqParamFun []).2
      "Parameter x is required but not provided in the arguments." rfl⟩

/-!
Embedding of `GoogleAIChatCompletion.get_chat_message_contents`
(`semantic_kernel/connectors/ai/google/google_ai/services/google_ai_chat_completion.py`,
lines 104-148): the bounded auto-invoke orchestration loop. The opaque
completion service `_send_chat_request` is a parameter `svc` from history to
completions; every send passes `tools=settings.tools` (line 163) and the loop
never modifies the settings, which we record as one `SendEvent` per send.
-/

/-- A function-call request item (`FunctionCallContent`): call id, fully
qualified function name, arguments payload. -/
structure FunctionCallContent where
  id : String
  name : String
  arguments : String
  deriving DecidableEq, Repr

/-- An item of a chat message: text, a function-call request, or a
function-call result. -/
inductive ChatItem
  | text (s : String)
  | functionCall (fc : FunctionCallContent)
  | functionResult (id : String) (name : String) (value : String)
  deriving DecidableEq, Repr

/-- A chat message (`ChatMessageContent`): role and items. -/
structure GMessage where
  role : ChatRole
  items : List ChatItem
  deriving DecidableEq, Repr

instance : Inhabited GMessage := ⟨⟨ChatRole.assistant, []⟩⟩

/-- Line 130: the `FunctionCallContent` items of a message. -/
def functionCallsOf (m : GMessage) : List FunctionCallContent :=
  m.items.filterMap
    (fun i =>
      match i with
      | .functionCall fc => some fc
      | _ => none)

/-- The execution-settings fields the loop reads: the tools offered on each
send (`settings.tools`, set once by `_configure_function_choice_behavior`
before the loop and never changed afterwards), the
`auto_invoke_kernel_functions` flag and `maximum_auto_invoke_attempts`. -/
structure GSettings where
  tools : List String
  autoInvoke : Bool
  maxAttempts : Nat
  deriving DecidableEq, Repr

/-- One network send performed by `_send_chat_request` (lines 150-167); the
request always passes `tools=settings.tools`, recorded here. -/
structure SendEvent where
  tools : List String
  deriving DecidableEq, Repr

/-- The outcome of `kernel.invoke_function_call` for one request: the
`tool`-role message appended to the history and the `terminate` flag of the
invocation context. -/
structure ToolCallOutcome where
  message : GMessage
  terminate : Bool
  deriving DecidableEq, Repr

/-- Modelled from the spec: `Kernel.invoke_function_call`
(`semantic_kernel/kernel.py` is not under `src/`; only its caller is). Per the
spec (section 4.5 step 6 and section 5), executing one function-call request
produces exactly one `tool`-role message carrying a function-result item with
the same call id and function name, and may set a terminate flag; `exec`
abstracts the actual kernel function execution (result value, terminate
flag). -/
def invokeFunctionCall (exec : FunctionCallContent → String × Bool)
    (fc : FunctionCallContent) : ToolCallOutcome :=
  ⟨⟨ChatRole.tool, [.functionResult fc.id fc.name (exec fc).1]⟩, (exec fc).2⟩

/-- The observable outcome of `get_chat_message_contents`: the returned
completions, the final chat history, the trace of sends performed (with the
tools offered on each), and the number of tool-invoking rounds executed. -/
structure LoopOutcome where
  completions : List GMessage
  history : List GMessage
  sends : List SendEvent
  invokingRounds : Nat
  deriving DecidableEq, Repr

/-- The `for request_index in range(maximum_auto_invoke_attempts)` loop of
`get_chat_message_contents` (lines 127-148), by recursion on the remaining
attempts. Fuel `0` is the loop's `else` clause: one final
`_send_chat_request` with the SAME settings (hence the same `tools`), whose
result is returned without touching the history and without invoking
anything. Each iteration sends, appends `completions[0]` to the history,
returns when the appended message carries no function calls, otherwise
invokes every call and returns early when any result's terminate flag is set
(line 144; the `result is not None` filter is vacuous here since every
modelled invocation returns an outcome). The per-call history appends
performed inside `kernel.invoke_function_call` (not under `src/`) are
modelled per the spec's ordering guarantee: one tool message per call,
appended in request order after the concurrent gather completes. -/
def gccLoop (svc : List GMessage → List GMessage)
    (exec : FunctionCallContent → String × Bool) (settings : GSettings) :
    Nat → List GMessage → List SendEvent → Nat → LoopOutcome
  | 0, hist, sends, inv =>
    ⟨svc hist, hist, sends ++ [⟨settings.tools⟩], inv⟩
  | fuel + 1, hist, sends, inv =>
    let comps := svc hist
    let hist1 := hist ++ [comps.headI]
    let fcs := functionCallsOf comps.headI
    if fcs.isEmpty then ⟨comps, hist1, sends ++ [⟨settings.tools⟩], inv⟩
    else
      let results := fcs.map (invokeFunctionCall exec)
      let hist2 := hist1 ++ results.map ToolCallOutcome.message
      if results.any ToolCallOutcome.terminate then
        ⟨comps, hist2, sends ++ [⟨settings.tools⟩], inv + 1⟩
      else gccLoop svc exec settings fuel hist2 (sends ++ [⟨settings.tools⟩]) (inv + 1)

/-- `get_chat_message_contents` (lines 106-148): without an auto-invoking
function-choice behavior, a single send; otherwise the bounded auto-invoke
loop starting from the full attempt budget. -/
def getChatMessageContents (svc : List GMessage → List GMessage)
    (exec : FunctionCallContent → String × Bool) (settings : GSettings)
    (hist : List GMessage) : LoopOutcome :=
  if settings.autoInvoke = false then ⟨svc hist, hist, [⟨settings.tools⟩], 0⟩
  else gccLoop svc exec settings settings.maxAttempts hist [] 0

theorem isEmpty_false_of_ne_nil {α : Type} (l : List α) (h : l ≠ []) :
    l.isEmpty = false := by
  cases l with
  | nil => exact absurd rfl h
  | cons a l => rfl

theorem any_terminate_false (exec : FunctionCallContent → String × Bool)
    (hterm : ∀ c, (exec c).2 = false) :
    ∀ l : List FunctionCallContent,
      (l.map (invokeFunctionCall exec)).any ToolCallOutcome.terminate = false
  | [] => rfl
  | c :: l => by
    simp [List.any_cons, invokeFunctionCall, hterm c,
      any_terminate_false exec hterm l]

/-- A mock service that always requests the tool call `p-f`. -/
def alwaysCallSvc : List GMessage → List GMessage :=
  fun _ => [⟨ChatRole.assistant, [.functionCall ⟨"call_1", "p-f", "argjson"⟩]⟩]

/-- Settings with one configured tool, auto-invoke on, ceiling of one
attempt. -/
def oneAttemptSettings : GSettings := ⟨["p-f"], true, 1⟩

/-- A mock executor returning "ok" and never terminating. -/
def neverTerminateExec : FunctionCallContent → String × Bool := fun _ => ("ok", false)

/-- A mock executor that sets the terminate flag. -/
def terminatingExec : FunctionCallContent → String × Bool := fun _ => ("done", true)

/-- C4 counterexample: with a service that always returns a tool-call request
and a ceiling of 1, the loop performs its tool-invoking round and then the
final send — but that final send still offers the configured tools (the
settings are never changed by the loop), so the claim's "one final send
without offering tools" is false: the last send's tools are `["p-f"]`, not
none. -/
theorem round_bound_counterexample :
    (getChatMessageContents alwaysCallSvc neverTerminateExec oneAttemptSettings []).sends
        = [⟨["p-f"]⟩, ⟨["p-f"]⟩] ∧
      ((getChatMessageContents alwaysCallSvc neverTerminateExec oneAttemptSettings
            []).sends.getLastD ⟨[]⟩).tools ≠ [] := by
  constructor
  · rfl
  · decide

/-- C4 (amended): for every service whose every response requests at least one
function call and every executor that never terminates, the auto-invoke loop
performs exactly `maximum_auto_invoke_attempts` tool-invoking rounds and then
one final send — with the settings unchanged, so the same tools are offered on
every send including the final one — and returns that final send's result:
`maxAttempts + 1` sends in total, so the loop always terminates in bounded
rounds. -/
theorem round_bound_amended (svc : List GMessage → List GMessage)
    (exec : FunctionCallContent → String × Bool) (settings : GSettings)
    (hist : List GMessage)
    (hcalls : ∀ h, functionCallsOf ((svc h).headI) ≠ [])
    (hterm : ∀ c, (exec c).2 = false)
    (hauto : settings.autoInvoke = true) :
    (getChatMessageContents svc exec settings hist).invokingRounds = settings.maxAttempts
      ∧ (getChatMessageContents svc exec settings hist).sends
        = List.replicate (settings.maxAttempts + 1) ⟨settings.tools⟩
      ∧ (getChatMessageContents svc exec settings hist).completions
        = svc (getChatMessageContents svc exec settings hist).history := by
  have main : ∀ (n : Nat) (h0 : List GMessage) (s0 : List SendEvent) (i0 : Nat),
      (gccLoop svc exec settings n h0 s0 i0).invokingRounds = i0 + n
        ∧ (gccLoop svc exec settings n h0 s0 i0).sends
          = s0 ++ List.replicate (n + 1) ⟨settings.tools⟩
        ∧ (gccLoop svc exec settings n h0 s0 i0).completions
          = svc (gccLoop svc exec settings n h0 s0 i0).history := by
    intro n
    induction n with
    | zero =>
      intro h0 s0 i0
      exact ⟨rfl, by simp [gccLoop], rfl⟩
    | succ n ih =>
      intro h0 s0 i0
      have hfc0 : (functionCallsOf ((svc h0).headI)).isEmpty = false :=
        isEmpty_false_of_ne_nil _ (hcalls h0)
      have hany0 := any_terminate_false exec hterm (functionCallsOf ((svc h0).headI))
      simp only [gccLoop, hfc0, hany0, Bool.false_eq_true, if_false]
      refine ⟨?_, ?_, (ih _ _ _).2.2⟩
      · rw [(ih _ _ _).1]
        omega
      · rw [(ih _ _ _).2.1]
        simp [List.replicate_succ, List.append_assoc]
  have hmain := main settings.maxAttempts hist [] 0
  simp only [getChatMessageContents, hauto, Bool.true_eq_false, if_false]
  refine ⟨?_, ?_, hmain.2.2⟩
  · rw [hmain.1]
    omega
  · rw [hmain.2.1]
    simp

/-- Closed witness for the amended C4 theorem: ceiling 1, a service always
requesting a call, an executor that never terminates. -/
theorem round_bound_amended_witness :
    (getChatMessageContents alwaysCallSvc neverTerminateExec oneAttemptSettings
          []).invokingRounds = oneAttemptSettings.maxAttempts
      ∧ (getChatMessageContents alwaysCallSvc neverTerminateExec oneAttemptSettings
          []).sends
        = List.replicate (oneAttemptSettings.maxAttempts + 1) ⟨oneAttemptSettings.tools⟩ :=
  ⟨(round_bound_amended alwaysCallSvc neverTerminateExec oneAttemptSettings []
      (fun _ => List.cons_ne_nil _ _) (fun _ => rfl) rfl).1,
    (round_bound_amended alwaysCallSvc neverTerminateExec oneAttemptSettings []
      (fun _ => List.cons_ne_nil _ _) (fun _ => rfl) rfl).2.1⟩

/-- C8: during an auto-invoke round, if any executed tool call's result
carries the terminate flag, the loop stops immediately — whatever attempt
budget remains — and returns this round's completions: exactly one more send
is performed, the round counter advances once, and the history receives only
the assistant message and this round's tool messages. -/
theorem terminate_stops_loop (svc : List GMessage → List GMessage)
    (exec : FunctionCallContent → String × Bool) (settings : GSettings)
    (fuel : Nat) (hist : List GMessage) (sends : List SendEvent) (inv : Nat)
    (hne : functionCallsOf ((svc hist).headI) ≠ [])
    (hterm : ((functionCallsOf ((svc hist).headI)).map
        (invokeFunctionCall exec)).any ToolCallOutcome.terminate = true) :
    gccLoop svc exec settings (fuel + 1) hist sends inv
      = ⟨svc hist,
          (hist ++ [(svc hist).headI])
            ++ ((functionCallsOf ((svc hist).headI)).map
                (invokeFunctionCall exec)).map ToolCallOutcome.message,
          sends ++ [⟨settings.tools⟩], inv + 1⟩ := by
  have hfc0 : (functionCallsOf ((svc hist).headI)).isEmpty = false :=
    isEmpty_false_of_ne_nil _ hne
  simp only [gccLoop, hfc0, hterm, Bool.false_eq_true, if_false, if_true]

/-- Closed witness for the C8 theorem: a terminating executor stops the loop
with four attempts still in budget. -/
theorem terminate_stops_loop_witness :
    gccLoop alwaysCallSvc terminatingExec oneAttemptSettings (4 + 1) [] [] 0
      = ⟨[⟨ChatRole.assistant, [.functionCall ⟨"call_1", "p-f", "argjson"⟩]⟩],
          [⟨ChatRole.assistant, [.functionCall ⟨"call_1", "p-f", "argjson"⟩]⟩,
            ⟨ChatRole.tool, [.functionResult "call_1" "p-f" "done"]⟩],
          [⟨["p-f"]⟩], 1⟩ :=
  terminate_stops_loop alwaysCallSvc terminatingExec oneAttemptSettings 4 [] [] 0
    (by decide) (by decide)

/-- C5: after one orchestration round whose assistant response carries
function-call requests, the history receives the assistant message first and
then exactly one tool-result message per request — carrying that request's
call id and function name — in the order the request items appeared in the
response (execution is gathered concurrently; the appends are modelled in
request order per the spec's ordering guarantee). -/
theorem round_appends_results_in_order (svc : List GMessage → List GMessage)
    (exec : FunctionCallContent → String × Bool) (settings : GSettings)
    (hist : List GMessage) (sends : List SendEvent) (inv : Nat)
    (hne : functionCallsOf ((svc hist).headI) ≠ []) :
    (gccLoop svc exec settings 1 hist sends inv).history
      = (hist ++ [(svc hist).headI])
        ++ (functionCallsOf ((svc hist).headI)).map
            (fun fc =>
              (⟨ChatRole.tool, [.functionResult fc.id fc.name (exec fc).1]⟩ : GMessage)) := by
  have hfc0 : (functionCallsOf ((svc hist).headI)).isEmpty = false :=
    isEmpty_false_of_ne_nil _ hne
  show (gccLoop svc exec settings (0 + 1) hist sends inv).history = _
  by_cases ht : ((functionCallsOf ((svc hist).headI)).map
      (invokeFunctionCall exec)).any ToolCallOutcome.terminate = true
  · simp only [gccLoop, hfc0, ht, Bool.false_eq_true, if_false, if_true,
      List.map_map]
    rfl
  · simp only [gccLoop, hfc0, Bool.false_eq_true, if_false,
      eq_false_of_ne_true ht, List.map_map]
    rfl

/-- A mock service requesting two tool calls with ids `a` then `b`. -/
def twoCallSvc : List GMessage → List GMessage :=
  fun _ =>
    [⟨ChatRole.assistant,
      [.functionCall ⟨"a", "p-f", "x"⟩, .functionCall ⟨"b", "p-g", "y"⟩]⟩]

/-- Closed witness for the C5 theorem: after one round with request ids
`["a", "b"]`, the history holds the assistant message, then the tool results
for `"a"` and `"b"`, each exactly once, in request order. -/
theorem round_appends_results_in_order_witness :
    (gccLoop twoCallSvc neverTerminateExec oneAttemptSettings 1 [] [] 0).history
      = [⟨ChatRole.assistant,
            [.functionCall ⟨"a", "p-f", "x"⟩, .functionCall ⟨"b", "p-g", "y"⟩]⟩,
          ⟨ChatRole.tool, [.functionResult "a" "p-f" "ok"]⟩,
          ⟨ChatRole.tool, [.functionResult "b" "p-g" "ok"]⟩] := by
  rw [round_appends_results_in_order twoCallSvc neverTerminateExec oneAttemptSettings
    [] [] 0 (by decide)]
  rfl

/-!
Modelled embedding of `OpenAIChatCompletionBase._process_tool_calls`
(`semantic_kernel/connectors/ai/open_ai/services/open_ai_chat_completion_base.py`
is not under `src/`; only its unit tests are).
-/

/-- A tool-call request as processed by the OpenAI round. `parse_arguments`
applies `json.loads` to the arguments string; `parsedArguments = none` means
the string is not valid JSON (`FunctionCallInvalidArgumentsException`). -/
structure OAIFunctionCall where
  id : String
  name : String
  parsedArguments : Option (List (String × String))
  deriving DecidableEq, Repr

/-- A `tool`-role result message appended by the round: call id, function
name, result text. -/
structure OAIToolMsg where
  id : String
  name : String
  text : String
  deriving DecidableEq, Repr

/-- Modelled from the spec: `OpenAIChatCompletionBase._process_tool_calls`
(the class is not under `src/`). Per spec section 4.5 step 6 and the unit test
`test_process_tool_calls_with_continuation_on_malformed_arguments`: a request
whose arguments fail to parse yields a tool-result message with the same id
and name and the explicit malformed-arguments text, without raising; every
other request is invoked (`invk` abstracts `kernel.invoke`) and yields its
result message; processing continues over all calls of the round. -/
def processToolCalls (invk : OAIFunctionCall → String)
    (calls : List OAIFunctionCall) : List OAIToolMsg :=
  calls.map
    (fun c =>
      match c.parsedArguments with
      | none => ⟨c.id, c.name, "The tool call arguments are malformed, please try again."⟩
      | some _ => ⟨c.id, c.name, invk c⟩)

/-- Modelled from the spec: one round of the OpenAI auto-invoke loop processes
the round's tool calls and advances the round counter by exactly one. -/
def processRound (invk : OAIFunctionCall → String) (round : Nat)
    (calls : List OAIFunctionCall) : List OAIToolMsg × Nat :=
  (processToolCalls invk calls, round + 1)

/-- C7: a round containing a tool call whose arguments string is not valid
JSON appends — without raising out of the loop — a tool-result message
carrying the same call id, the same function name and the explicit
malformed-arguments error text; every other tool call of the round is still
executed and yields its own result message; the per-call messages appear one
per request, in request order; and the round counter advances by exactly
one. -/
theorem malformed_arguments_recovery (invk : OAIFunctionCall → String)
    (round : Nat) (calls : List OAIFunctionCall) :
    (processRound invk round calls).2 = round + 1
      ∧ (∀ c ∈ calls, c.parsedArguments = none →
          (⟨c.id, c.name,
            "The tool call arguments are malformed, please try again."⟩ : OAIToolMsg)
            ∈ (processRound invk round calls).1)
      ∧ (∀ c ∈ calls, c.parsedArguments.isSome = true →
          (⟨c.id, c.name, invk c⟩ : OAIToolMsg) ∈ (processRound invk round calls).1)
      ∧ (processRound invk round calls).1.map OAIToolMsg.id
        = calls.map OAIFunctionCall.id := by
  refine ⟨rfl, ?_, ?_, ?_⟩
  · intro c hc hpa
    exact List.mem_map.mpr ⟨c, hc, by simp [hpa]⟩
  · intro c hc hpa
    obtain ⟨args, hargs⟩ := Option.isSome_iff_exists.mp hpa
    exact List.mem_map.mpr ⟨c, hc, by simp [hargs]⟩
  · show (processToolCalls invk calls).map OAIToolMsg.id = calls.map OAIFunctionCall.id
    unfold processToolCalls
    rw [List.map_map]
    apply List.map_congr_left
    intro c _
    cases hpa : c.parsedArguments <;> simp [hpa]

/-- The malformed tool call of the unit test (`test_id`, `test_function`,
unparsable arguments). -/
def malformedCall : OAIFunctionCall := ⟨"test_id", "test_function", none⟩

/-- The well-formed companion tool call of the unit test. -/
def okCall : OAIFunctionCall :=
  ⟨"another_test_id", "another_test_function",
    some [("another_arg_name", "another_arg_value")]⟩

/-- The mocked `kernel.invoke` of the unit test. -/
def mockInvk : OAIFunctionCall → String := fun _ => "Another Function result"

/-- Closed witness for the C7 theorem at the unit test's inputs. -/
theorem malformed_arguments_recovery_witness :
    (⟨"test_id", "test_function",
        "The tool call arguments are malformed, please try again."⟩ : OAIToolMsg)
        ∈ (processRound mockInvk 0 [malformedCall, okCall]).1
      ∧ (processRound mockInvk 0 [malformedCall, okCall]).2 = 1 :=
  ⟨(malformed_arguments_recovery mockInvk 0 [malformedCall, okCall]).2.1 malformedCall
      (List.mem_cons_self _ _) rfl,
    (malformed_arguments_recovery mockInvk 0 [malformedCall, okCall]).1⟩

end SKSpec
